import Mathlib

set_option maxHeartbeats 1000000

/-!
A shallow embedding of the Telegram job-forwarding bot (`main.go`): text
normalization (`normalizeText`), content fingerprinting
(`computeFingerprint`, SHA-256 over the normalized text truncated to 400
characters), rule-based relevance classification (`isRelevant`,
`excludes2025`), the ingestion webhook handler
(`telegramWebhookHandler`), the destination-chat lookup
(`mustGetPersonalChatID`), and the batch worker (`processOne`,
`runWorkerPass`) over a modelled Firestore message store.

Strings are modelled through their character lists.  ASCII case mapping
stands in for Go's Unicode `strings.ToLower`: every classifier keyword
and every regex character class in the source is ASCII, and non-ASCII
letters are erased to a space by the `[^a-z0-9\s]` pass either way.
Go's regexp `ReplaceAllString` is modelled by a leftmost scanner whose
per-position matcher reproduces the leftmost-first, greedy (RE2)
semantics of each of the five concrete regular expressions in the
source.  Firestore is modelled as an association list of
(document id, record) pairs; each fallible external operation of the
worker is governed by an explicit success oracle (`WorkerEnv`), so that
the control flow of `processOne` — which discards the errors of
`updateProcessingResult` and `sendTextMessage` — can be stated exactly.
-/

/-- ASCII lowercasing of one character; `strings.ToLower` restricted to
ASCII ('A'..'Z' have code points 65..90). -/
def goToLower (c : Char) : Char :=
  if 65 ≤ c.toNat ∧ c.toNat ≤ 90 then Char.ofNat (c.toNat + 32) else c

/-- The RE2 character class `\s`, i.e. `[\t\n\f\r ]`. -/
def isRegexSpace (c : Char) : Bool :=
  c == '\t' || c == '\n' || c == '\x0c' || c == '\r' || c == ' '

/-- `unicode.IsSpace` (used by `strings.TrimSpace`) on Latin-1:
`[\t\n\v\f\r ]` plus U+0085 and U+00A0. -/
def isGoSpace (c : Char) : Bool :=
  c == '\t' || c == '\n' || c == '\x0b' || c == '\x0c' || c == '\r' ||
  c == ' ' || c == '\x85' || c == '\xa0'

/-- The regex class `\d` = `[0-9]` (code points 48..57). -/
def isDigitCh (c : Char) : Bool :=
  decide (48 ≤ c.toNat ∧ c.toNat ≤ 57)

/-- The regex class `[a-zA-Z]`. -/
def isAsciiLetter (c : Char) : Bool :=
  decide (65 ≤ c.toNat ∧ c.toNat ≤ 90) || decide (97 ≤ c.toNat ∧ c.toNat ≤ 122)

/-- The class `[a-z0-9]` of characters kept verbatim by `nonTextRegex`. -/
def isLowerAlnumB (c : Char) : Bool :=
  decide (97 ≤ c.toNat ∧ c.toNat ≤ 122) || decide (48 ≤ c.toNat ∧ c.toNat ≤ 57)

/-- The local-part class of `emailRegex`: `[a-zA-Z0-9._%+\-]`. -/
def isEmailLocalCh (c : Char) : Bool :=
  isAsciiLetter c || isDigitCh c || c == '.' || c == '_' || c == '%' ||
  c == '+' || c == '-'

/-- The domain class of `emailRegex`: `[a-zA-Z0-9.\-]`. -/
def isEmailDomainCh (c : Char) : Bool :=
  isAsciiLetter c || isDigitCh c || c == '.' || c == '-'

/-- The repeated class of `phoneRegex`: `[\d\s\-]`. -/
def isPhoneClassCh (c : Char) : Bool :=
  isDigitCh c || isRegexSpace c || c == '-'

/-- Length of the longest prefix of `l` whose characters satisfy `p`. -/
def countLead (p : Char → Bool) : List Char → Nat
  | [] => 0
  | c :: cs => if p c then countLead p cs + 1 else 0

/-- Fuel-driven driver of Go's `Regexp.ReplaceAllString`: scan left to
right; at each position ask the matcher `m` for the total length of the
(leftmost-first, greedy) match starting there; on a match emit the
replacement `r` and resume after the match, otherwise keep the
character.  The matcher only ever returns lengths `≥ 1`, and the fuel is
instantiated with the length of the scanned list, so the fuel never runs
out. -/
def replAllGo (m : Char → List Char → Option Nat) (r : List Char) :
    Nat → List Char → List Char
  | 0, t => t
  | _ + 1, [] => []
  | fuel + 1, c :: cs =>
    match m c cs with
    | some k => r ++ replAllGo m r fuel (cs.drop (k - 1))
    | none => c :: replAllGo m r fuel cs

/-- `ReplaceAllString` of the regex behind matcher `m` by `r`. -/
def replAll (m : Char → List Char → Option Nat) (r : List Char)
    (t : List Char) : List Char :=
  replAllGo m r t.length t

/-- Matcher of `urlRegex = https?://\S+` at one position: literal
`http`, greedy optional `s`, literal `://`, then a non-empty maximal run
of non-space characters.  Returns the total match length. -/
def urlM : Char → List Char → Option Nat
  | 'h', 't' :: 't' :: 'p' :: 's' :: ':' :: '/' :: '/' :: rest =>
    let k := countLead (fun c => !isRegexSpace c) rest
    if k = 0 then none else some (8 + k)
  | 'h', 't' :: 't' :: 'p' :: ':' :: '/' :: '/' :: rest =>
    let k := countLead (fun c => !isRegexSpace c) rest
    if k = 0 then none else some (7 + k)
  | _, _ => none

/-- Backtracking search for the `[a-zA-Z0-9.\-]+\.[a-zA-Z]{2,}` tail of
`emailRegex` after the `@`: try the greedy domain-run length `j` first
(`j` descends), require a literal `.` just after it and at least two
letters after the dot.  Returns the number of characters consumed after
the `@`. -/
def emailTry (rest : List Char) : Nat → Option Nat
  | 0 => none
  | j + 1 =>
    match rest.drop (j + 1) with
    | '.' :: tail =>
      let l := countLead isAsciiLetter tail
      if 2 ≤ l then some ((j + 1) + 1 + l) else emailTry rest j
    | _ => emailTry rest j

/-- Matcher of
`emailRegex = [a-zA-Z0-9._%+\-]+@[a-zA-Z0-9.\-]+\.[a-zA-Z]{2,}` at one
position.  The greedy local-part run must be followed by `@` ( `@` is
not in the local class, so no shorter run can succeed); after the `@`
the domain run backtracks from its greedy maximum. -/
def emailM (c : Char) (cs : List Char) : Option Nat :=
  if isEmailLocalCh c then
    let m := countLead isEmailLocalCh cs + 1
    match (c :: cs).drop m with
    | '@' :: rest =>
      let n := countLead isEmailDomainCh rest
      if n = 0 then none
      else (emailTry rest (n - 1)).map (fun t => m + 1 + t)
    | _ => none
  else none

/-- Backtracking search for the `[\d\s\-]{7,}\d` tail of `phoneRegex`
after the leading digit: try the class-run length `j` first (`j`
descends from the greedy maximum, stays `≥ 7`), require a digit right
after the run.  Returns the number of characters consumed after the
leading digit. -/
def phoneTry (rest : List Char) : Nat → Option Nat
  | 0 => none
  | j + 1 =>
    if j + 1 < 7 then none
    else
      match rest.drop (j + 1) with
      | d :: _ =>
        if isDigitCh d then some ((j + 1) + 1) else phoneTry rest j
      | [] => phoneTry rest j

/-- The part of `phoneRegex` after the optional `+` and the first digit. -/
def phoneCore (rest : List Char) : Option Nat :=
  let m := countLead isPhoneClassCh rest
  phoneTry rest (m - 1)

/-- Matcher of `phoneRegex = \+?\d[\d\s\-]{7,}\d` at one position.  The
optional `+` is greedy; if it is taken, the next character must be the
leading digit (a bare `+` cannot start a match the other way, since `\d`
rejects `+`). -/
def phoneM (c : Char) (cs : List Char) : Option Nat :=
  if c == '+' then
    match cs with
    | d :: rest =>
      if isDigitCh d then (phoneCore rest).map (fun t => 2 + t) else none
    | [] => none
  else if isDigitCh c then (phoneCore cs).map (fun t => 1 + t)
  else none

/-- One character under `nonTextRegex = [^a-z0-9\s]` replaced by a
space; the class is single-character, so `ReplaceAllString` is the
pointwise map of this function. -/
def nonTextRepl (c : Char) : Char :=
  if isLowerAlnumB c || isRegexSpace c then c else ' '

/-- `ReplaceAllString` of `spaceRegex = \s+` by a single space: each
maximal run of regex whitespace collapses to one `' '`.  Built by a
right fold that merges a whitespace character into an already collapsed
whitespace head. -/
def collapseSpaces : List Char → List Char
  | [] => []
  | c :: cs =>
    let r := collapseSpaces cs
    if isRegexSpace c then
      match r with
      | [] => [' ']
      | d :: tl => if isRegexSpace d then d :: tl else ' ' :: d :: tl
    else c :: r

/-- Remove trailing `unicode.IsSpace` characters (the right half of
`strings.TrimSpace`). -/
def dropTrailingWS : List Char → List Char
  | [] => []
  | c :: cs =>
    let r := dropTrailingWS cs
    if r.isEmpty then (if isGoSpace c then [] else [c]) else c :: r

/-- `strings.TrimSpace`. -/
def trimSpace (l : List Char) : List Char :=
  dropTrailingWS (l.dropWhile isGoSpace)

/-- `normalizeText` from `main.go` on character lists: lower-case, strip
URLs, strip emails, strip phone-like digit runs, blank out the remaining
non-`[a-z0-9\s]` characters, collapse whitespace runs, trim. -/
def normalizeChars (l : List Char) : List Char :=
  let t := l.map goToLower
  let t := replAll urlM [] t
  let t := replAll emailM [] t
  let t := replAll phoneM [] t
  let t := t.map nonTextRepl
  let t := collapseSpaces t
  trimSpace t

/-- `normalizeText` from `main.go`. -/
def normalizeText (text : String) : String :=
  String.mk (normalizeChars text.data)

/-- `strings.ToLower` (ASCII fragment), as used by `isRelevant`. -/
def toLowerStr (s : String) : String :=
  String.mk (s.data.map goToLower)

/-- Reduction modulo 2^32, the word size of SHA-256 arithmetic. -/
def wmod (n : Nat) : Nat := n % 4294967296

/-- 32-bit right rotation (arguments are words `< 2^32`). -/
def rotr (x n : Nat) : Nat := (x >>> n) ||| wmod (x <<< (32 - n))

/-- SHA-256 `Ch(x,y,z) = (x ∧ y) ⊕ (¬x ∧ z)`; 32-bit complement is xor
with `0xffffffff`. -/
def shaCh (x y z : Nat) : Nat := (x &&& y) ^^^ ((x ^^^ 4294967295) &&& z)

/-- SHA-256 `Maj(x,y,z)`. -/
def shaMaj (x y z : Nat) : Nat := (x &&& y) ^^^ (x &&& z) ^^^ (y &&& z)

/-- SHA-256 `Σ0`. -/
def bigS0 (x : Nat) : Nat := rotr x 2 ^^^ rotr x 13 ^^^ rotr x 22

/-- SHA-256 `Σ1`. -/
def bigS1 (x : Nat) : Nat := rotr x 6 ^^^ rotr x 11 ^^^ rotr x 25

/-- SHA-256 `σ0`. -/
def smallS0 (x : Nat) : Nat := rotr x 7 ^^^ rotr x 18 ^^^ (x >>> 3)

/-- SHA-256 `σ1`. -/
def smallS1 (x : Nat) : Nat := rotr x 17 ^^^ rotr x 19 ^^^ (x >>> 10)

/-- The 64 SHA-256 round constants. -/
def K256 : List Nat :=
  [1116352408, 1899447441, 3049323471, 3921009573,
   961987163, 1508970993, 2453635748, 2870763221,
   3624381080, 310598401, 607225278, 1426881987,
   1925078388, 2162078206, 2614888103, 3248222580,
   3835390401, 4022224774, 264347078, 604807628,
   770255983, 1249150122, 1555081692, 1996064986,
   2554220882, 2821834349, 2952996808, 3210313671,
   3336571891, 3584528711, 113926993, 338241895,
   666307205, 773529912, 1294757372, 1396182291,
   1695183700, 1986661051, 2177026350, 2456956037,
   2730485921, 2820302411, 3259730800, 3345764771,
   3516065817, 3600352804, 4094571909, 275423344,
   430227734, 506948616, 659060556, 883997877,
   958139571, 1322822218, 1537002063, 1747873779,
   1955562222, 2024104815, 2227730452, 2361852424,
   2428436474, 2756734187, 3204031479, 3329325298]

/-- Big-endian packing of bytes into 32-bit words. -/
def toWords : List Nat → List Nat
  | b0 :: b1 :: b2 :: b3 :: rest =>
    ((b0 <<< 24) + (b1 <<< 16) + (b2 <<< 8) + b3) :: toWords rest
  | _ => []

/-- Extend the 16-word message schedule by `n` further words. -/
def extendW : Nat → List Nat → List Nat
  | 0, w => w
  | n + 1, w =>
    let i := w.length
    let wi := wmod (smallS1 (w.getD (i - 2) 0) + w.getD (i - 7) 0 +
                    smallS0 (w.getD (i - 15) 0) + w.getD (i - 16) 0)
    extendW n (w ++ [wi])

/-- The 64-word schedule of one 64-byte block. -/
def schedule (block : List Nat) : List Nat := extendW 48 (toWords block)

/-- The eight 32-bit working variables of SHA-256. -/
structure H8 where
  a : Nat
  b : Nat
  c : Nat
  d : Nat
  e : Nat
  f : Nat
  g : Nat
  h : Nat
deriving DecidableEq, Repr

/-- One SHA-256 round with constant `k` and schedule word `w`. -/
def shaRound (st : H8) (k w : Nat) : H8 :=
  let t1 := wmod (st.h + bigS1 st.e + shaCh st.e st.f st.g + k + w)
  let t2 := wmod (bigS0 st.a + shaMaj st.a st.b st.c)
  ⟨wmod (t1 + t2), st.a, st.b, st.c, wmod (st.d + t1), st.e, st.f, st.g⟩

/-- Compression of one 64-byte block into the running hash state. -/
def compressBlock (st : H8) (block : List Nat) : H8 :=
  let e := (K256.zip (schedule block)).foldl
    (fun s p => shaRound s p.1 p.2) st
  ⟨wmod (st.a + e.a), wmod (st.b + e.b), wmod (st.c + e.c),
   wmod (st.d + e.d), wmod (st.e + e.e), wmod (st.f + e.f),
   wmod (st.g + e.g), wmod (st.h + e.h)⟩

/-- 8-byte big-endian encoding of the message bit length. -/
def lenBE (n : Nat) : List Nat :=
  [(n >>> 56) &&& 255, (n >>> 48) &&& 255, (n >>> 40) &&& 255,
   (n >>> 32) &&& 255, (n >>> 24) &&& 255, (n >>> 16) &&& 255,
   (n >>> 8) &&& 255, n &&& 255]

/-- SHA-256 padding: `0x80`, zeros to 56 mod 64, 8 length bytes. -/
def shaPad (msg : List Nat) : List Nat :=
  let ml := msg.length
  let z := (56 + 64 - ((ml + 1) % 64)) % 64
  msg ++ 128 :: (List.replicate z 0 ++ lenBE (ml * 8))

/-- Split a byte list into 64-byte blocks (fuel-driven; the fuel is
instantiated with the list length, which suffices). -/
def chunksGo : Nat → List Nat → List (List Nat)
  | 0, _ => []
  | _ + 1, [] => []
  | fuel + 1, l => l.take 64 :: chunksGo fuel (l.drop 64)

/-- The SHA-256 initial hash value. -/
def initH : H8 :=
  ⟨1779033703, 3144134277, 1013904242, 2773480762,
   1359893119, 2600822924, 528734635, 1541459225⟩

/-- Big-endian bytes of one hash word. -/
def wordBytes (w : Nat) : List Nat :=
  [(w >>> 24) &&& 255, (w >>> 16) &&& 255, (w >>> 8) &&& 255, w &&& 255]

/-- `sha256.Sum256`: the 32 digest bytes of a byte message. -/
def sha256Bytes (msg : List Nat) : List Nat :=
  let fin := (chunksGo (shaPad msg).length (shaPad msg)).foldl
    compressBlock initH
  wordBytes fin.a ++ wordBytes fin.b ++ wordBytes fin.c ++
  wordBytes fin.d ++ wordBytes fin.e ++ wordBytes fin.f ++
  wordBytes fin.g ++ wordBytes fin.h

/-- One lowercase hexadecimal digit (input `< 16`). -/
def hexDigit (n : Nat) : Char :=
  Char.ofNat (if n < 10 then 48 + n else 87 + n)

/-- `hex.EncodeToString` character stream: two digits per byte, high
nibble first. -/
def hexChars : List Nat → List Char
  | [] => []
  | b :: bs => hexDigit (b / 16) :: hexDigit (b % 16) :: hexChars bs

/-- `hex.EncodeToString`. -/
def hexEncode (bytes : List Nat) : String := String.mk (hexChars bytes)

/-- `computeFingerprint` from `main.go`: normalize, truncate to the
first 400 bytes (the normalized text is ASCII, so Go's byte slicing
coincides with character slicing), SHA-256, lowercase hex. -/
def computeFingerprint (messageText : String) : String :=
  let normalized := normalizeText messageText
  hexEncode (sha256Bytes (((normalized.data).map Char.toNat).take 400))

/-- `List.isPrefixOf` on characters, spelled out for simp-friendliness. -/
def isPrefixOfCL (pat l : List Char) : Bool :=
  match pat, l with
  | [], _ => true
  | p :: ps, c :: cs => p == c && isPrefixOfCL ps cs
  | _ :: _, [] => false

/-- Substring test on character lists ( `strings.Contains` ). -/
def containsSub : List Char → List Char → Bool
  | l, sub =>
    if isPrefixOfCL sub l then true
    else
      match l with
      | [] => false
      | _ :: cs => containsSub cs sub

/-- `strings.Contains`. -/
def strContains (s sub : String) : Bool := containsSub s.data sub.data

/-- `containsAny` from `main.go`: the early-returning loop over the
pattern list is `List.any`. -/
def containsAny (text : String) (patterns : List String) : Bool :=
  patterns.any (fun p => strContains text p)

/-- `internshipKeywords` from `main.go`. -/
def internshipKeywords : List String :=
  ["intern", "internship", "trainee", "apprentice"]

/-- `studentKeywords` from `main.go`. -/
def studentKeywords : List String :=
  ["final year", "final-year", "student", "students only",
   "currently pursuing", "pursuing degree", "campus hiring",
   "on campus", "college student"]

/-- `experienceRejectPatterns` from `main.go`. -/
def experienceRejectPatterns : List String :=
  ["2+ year", "3+ year", "4+ year",
   "minimum 2 year", "minimum 3 year",
   "2 years experience", "3 years experience",
   "experienced candidate", "experienced only"]

/-- `explicitNon2025Patterns` from `main.go`. -/
def explicitNon2025Patterns : List String :=
  ["2024 batch", "2023 batch", "2022 batch", "2021 batch",
   "2022-2024", "2021-2023"]

/-- `excludes2025` from `main.go`: explicit exclusions, then a check of
the literal `"2025"` both of whose branches return `false`. -/
def excludes2025 (text : String) : Bool :=
  if containsAny text explicitNon2025Patterns then true
  else if strContains text "2025" then false
  else false

/-- `isRelevant` from `main.go`: lower-case, then four reject rules in
order, each short-circuiting to `false`. -/
def isRelevant (messageText : String) : Bool :=
  let text := toLowerStr messageText
  if containsAny text internshipKeywords then false
  else if containsAny text studentKeywords then false
  else if containsAny text experienceRejectPatterns then false
  else if excludes2025 text then false
  else true

/-- Decimal digits of a natural number, most significant first
(fuel-driven; fuel `n + 1` always suffices). -/
def natDigits : Nat → Nat → List Char
  | 0, _ => []
  | fuel + 1, n =>
    if n < 10 then [Char.ofNat (48 + n)]
    else natDigits fuel (n / 10) ++ [Char.ofNat (48 + n % 10)]

/-- Go's `%d` rendering of an `int64`. -/
def intToStr (i : Int) : String :=
  if i < 0 then String.mk ('-' :: natDigits (i.natAbs + 1) i.natAbs)
  else String.mk (natDigits (i.toNat + 1) i.toNat)

/-- Value of a list of decimal digit characters. -/
def digitsToNat (ds : List Char) : Nat :=
  ds.foldl (fun acc c => acc * 10 + (c.toNat - 48)) 0

/-- `strconv.ParseInt(s, 10, 64)`: the returned value and whether
parsing succeeded.  On a syntax error (empty string, sign only, or a
non-digit) Go returns value 0; on a range error it returns the clamped
extreme of `int64` — in both cases together with a non-nil error. -/
def parseInt64 (s : String) : Int × Bool :=
  match s.data with
  | [] => (0, false)
  | c :: rest =>
    let neg := c == '-'
    let digits := if c == '-' || c == '+' then rest else c :: rest
    if digits.isEmpty then (0, false)
    else if digits.all isDigitCh then
      let n := digitsToNat digits
      if neg then
        if 9223372036854775808 < n then (-9223372036854775808, false)
        else (-(n : Int), true)
      else
        if 9223372036854775807 < n then (9223372036854775807, false)
        else ((n : Int), true)
    else (0, false)

/-- `mustGetPersonalChatID` from `main.go`, with the raw value of the
`PERSONAL_CHAT_ID` environment variable as input: the parse error is
discarded with `_` and whatever value `strconv.ParseInt` produced is
returned. -/
def mustGetPersonalChatID (idStr : String) : Int :=
  (parseInt64 idStr).1

/-- Whether `strconv.ParseInt(s, 10, 64)` succeeds syntactically: an
optional sign followed by a non-empty run of decimal digits. -/
def int64SyntaxOK (s : String) : Bool :=
  match s.data with
  | [] => false
  | c :: rest =>
    let digits := if c == '-' || c == '+' then rest else c :: rest
    !digits.isEmpty && digits.all isDigitCh

/-- The persisted `TelegramMessage` record of `main.go` (Firestore
document).  Timestamps are modelled as epoch seconds. -/
structure TelegramMessage where
  channelID : Int
  channelName : String
  messageID : Int
  messageText : String
  messageTimestamp : Int
  receivedAt : Int
  isProcessed : Bool
  isRelevant : Option Bool
  processedAt : Option Int
  jobFingerprint : Option String
  isForwarded : Bool
deriving DecidableEq, Repr

/-- `formatMessage` from `main.go`. -/
def formatMessage (msg : TelegramMessage) : String :=
  "📢 Job Post\n\nChannel: " ++ msg.channelName ++ "\n\n" ++
  msg.messageText

/-- `Chat` from the Telegram update JSON. -/
structure Chat where
  id : Int
  title : String
  chatType : String
deriving DecidableEq, Repr

/-- `Photo` from the Telegram update JSON. -/
structure Photo where
  fileID : String
deriving DecidableEq, Repr

/-- `Document` from the Telegram update JSON. -/
structure Document where
  fileID : String
  fileName : String
  mimeType : String
deriving DecidableEq, Repr

/-- `TelegramMessageRaw` from the Telegram update JSON; absent optional
JSON fields decode to `""` / `[]` / `none` exactly as Go's zero values. -/
structure TelegramMessageRaw where
  messageID : Int
  date : Int
  text : String
  caption : String
  chat : Chat
  photo : List Photo
  document : Option Document
deriving DecidableEq, Repr

/-- `TelegramUpdate` from the Telegram update JSON. -/
structure TelegramUpdate where
  updateID : Int
  message : Option TelegramMessageRaw
  channelPost : Option TelegramMessageRaw
deriving DecidableEq, Repr

/-- The `message`-then-`channel_post` selection of the webhook handler. -/
def selectMessage (u : TelegramUpdate) : Option TelegramMessageRaw :=
  match u.message with
  | some m => some m
  | none => u.channelPost

/-- `telegramWebhookHandler` from `main.go` as a pure function.
Inputs: whether the Firestore client could be created (`clientOK`),
whether the `Set` write succeeded (`storeOK`), the current time, the
HTTP method, and the decoded body (`none` = malformed JSON).  Output:
the HTTP status written, and the successfully stored
(document id, record) pair if any.  Every path acknowledges with 200. -/
def telegramWebhookHandler (clientOK storeOK : Bool) (now : Int)
    (method : String) (body : Option TelegramUpdate) :
    Nat × Option (String × TelegramMessage) :=
  if method ≠ "POST" then (200, none)
  else
    match body with
    | none => (200, none)
    | some update =>
      match selectMessage update with
      | none => (200, none)
      | some msg =>
        let hasMedia := msg.document.isSome || !msg.photo.isEmpty
        let hasText := msg.text ≠ "" || msg.caption ≠ ""
        if !hasText && !hasMedia then (200, none)
        else
          let docID := intToStr msg.chat.id ++ "_" ++ intToStr msg.messageID
          if !clientOK then (200, none)
          else
            let rec0 : TelegramMessage :=
              { channelID := msg.chat.id
                channelName := msg.chat.title
                messageID := msg.messageID
                messageText := msg.text
                messageTimestamp := msg.date
                receivedAt := now
                isProcessed := false
                isRelevant := none
                processedAt := none
                jobFingerprint := none
                isForwarded := false }
            if !storeOK then (200, none)
            else (200, some (docID, rec0))

/-- The `telegram_messages` Firestore collection, modelled as an
association list of (document id, record) pairs. -/
abbrev Store := List (String × TelegramMessage)

/-- Read the record stored under a document id (first match). -/
def getDoc : Store → String → Option TelegramMessage
  | [], _ => none
  | p :: rest, docID => if p.1 = docID then some p.2 else getDoc rest docID

/-- `storeMessage` from `main.go`: Firestore `Set`, an unconditional
create-or-replace at the document id. -/
def storeMessage (store : Store) (docID : String) (msg : TelegramMessage) :
    Store :=
  if (getDoc store docID).isSome then
    store.map (fun p => if p.1 = docID then (p.1, msg) else p)
  else store ++ [(docID, msg)]

/-- `fetchUnprocessed` from `main.go`: the records with
`is_processed == false`, limited; list order models Firestore's
unspecified result order. -/
def fetchUnprocessed (store : Store) (limit : Nat) :
    List (String × TelegramMessage) :=
  (store.filter (fun p => !p.2.isProcessed)).take limit

/-- `updateProcessingResult` from `main.go`: Firestore `Update` setting
`is_processed`, `is_relevant`, `processed_at` and `job_fingerprint` on
one document. -/
def updateProcessingResult (store : Store) (docID : String)
    (isRelevantV : Bool) (fingerprint : String) (now : Int) : Store :=
  store.map (fun p =>
    if p.1 = docID then
      (p.1, { p.2 with
                isProcessed := true
                isRelevant := some isRelevantV
                processedAt := some now
                jobFingerprint := some fingerprint })
    else p)

/-- `markForwarded` from `main.go`: Firestore `Update` setting
`is_forwarded = true` on one document. -/
def markForwarded (store : Store) (docID : String) : Store :=
  store.map (fun p =>
    if p.1 = docID then (p.1, { p.2 with isForwarded := true }) else p)

/-- Whether some record carries this fingerprint with
`is_forwarded == true` (the conjunctive Firestore query of
`isFingerprintForwarded`). -/
def hasForwardedFp (store : Store) (fp : String) : Bool :=
  store.any (fun p =>
    p.2.isForwarded && decide (p.2.jobFingerprint = some fp))

/-- Success oracle and configuration for one worker invocation: whether
each external operation succeeds (`doc.DataTo`, the classification
`Update`, the dedup query, the outbound HTTP send, the forwarded-flag
`Update`), the raw `PERSONAL_CHAT_ID` environment value, and the clock. -/
structure WorkerEnv where
  decodeOK : String → Bool
  updateOK : String → Bool
  queryOK : String → Bool
  sendOK : Int → String → Bool
  markOK : String → Bool
  personalChatID : String
  now : Int

/-- `isFingerprintForwarded` from `main.go`: `none` models a query
error (the caller receives `(false, err)`), `some b` a successful
query. -/
def isFingerprintForwarded (env : WorkerEnv) (store : Store)
    (fp : String) : Option Bool :=
  if env.queryOK fp then some (hasForwardedFp store fp) else none

/-- `processOne` from `main.go` on one fetched document snapshot.
Returns the store after the record's processing together with the list
of attempted outbound sends `(chat id, text)`.  Exactly as in the
source: the error of `updateProcessingResult` is discarded (a failed
update leaves the store unchanged and processing continues), a dedup
query error or hit stops the record, and the result of
`sendTextMessage` is discarded — `markForwarded` runs after the send
attempt regardless of the send's outcome. -/
def processOne (env : WorkerEnv) (store : Store)
    (doc : String × TelegramMessage) : Store × List (Int × String) :=
  let docID := doc.1
  let msg := doc.2
  if !env.decodeOK docID then (store, [])
  else
    let fingerprint := computeFingerprint msg.messageText
    let relevant := isRelevant msg.messageText
    let store1 :=
      if env.updateOK docID then
        updateProcessingResult store docID relevant fingerprint env.now
      else store
    if !relevant then (store1, [])
    else
      match isFingerprintForwarded env store1 fingerprint with
      | none => (store1, [])
      | some true => (store1, [])
      | some false =>
        let chatID := mustGetPersonalChatID env.personalChatID
        let text := formatMessage msg
        let store2 :=
          if env.markOK docID then markForwarded store1 docID else store1
        (store2, [(chatID, text)])

/-- The POST branch of `workerHandler` from `main.go`: fetch up to 50
unprocessed records once, then process the fetched snapshots strictly
sequentially over the evolving store, collecting all attempted sends. -/
def runWorkerPass (env : WorkerEnv) (store : Store) :
    Store × List (Int × String) :=
  let docs := fetchUnprocessed store 50
  docs.foldl
    (fun acc doc =>
      let r := processOne env acc.1 doc
      (r.1, acc.2 ++ r.2))
    (store, [])

/-- Modelled from the spec's words for the refinement claim about the
non-2025 rule: rejection is exactly membership of the fixed explicit
pattern list. -/
def excludes2025Spec (text : String) : Bool :=
  containsAny text explicitNon2025Patterns

/-- No two adjacent regex-whitespace characters (the shape left behind
by the `\s+ -> " "` collapse). -/
def NoDoubleWS : List Char → Prop
  | c :: d :: rest =>
    ¬(isRegexSpace c = true ∧ isRegexSpace d = true) ∧ NoDoubleWS (d :: rest)
  | _ => True

/-- The sixteen lowercase hexadecimal digit characters. -/
def hexAlphabet : List Char :=
  (List.range 10).map (fun n => Char.ofNat (48 + n)) ++
  (List.range 6).map (fun n => Char.ofNat (97 + n))

/-- A relevant job record (the spec's §8 scenario text), used by
concrete witnesses. -/
def recJob : TelegramMessage :=
  { channelID := 10
    channelName := "chanA"
    messageID := 1
    messageText := "Backend engineer role, apply now, 2025 batch"
    messageTimestamp := 0
    receivedAt := 0
    isProcessed := false
    isRelevant := none
    processedAt := none
    jobFingerprint := none
    isForwarded := false }

/-- The same posting re-posted on a second channel (identical text,
distinct composite key). -/
def recJobB : TelegramMessage :=
  { recJob with channelID := 20, channelName := "chanB" }

/-- Oracle under which every external operation succeeds. -/
def envAllOK : WorkerEnv :=
  { decodeOK := fun _ => true
    updateOK := fun _ => true
    queryOK := fun _ => true
    sendOK := fun _ _ => true
    markOK := fun _ => true
    personalChatID := "777"
    now := 5 }

/-- Oracle under which only the outbound send fails. -/
def envSendFail : WorkerEnv := { envAllOK with sendOK := fun _ _ => false }

/-- Oracle under which only the classification store-update fails. -/
def envUpdateFail : WorkerEnv := { envAllOK with updateOK := fun _ => false }

/-- Oracle under which the classification store-update fails for the
document "10_1" only. -/
def envUpdateFailOne : WorkerEnv :=
  { envAllOK with updateOK := fun d => d ≠ "10_1" }

/-- A media-only raw message carrying a caption but no text. -/
def rawMedia : TelegramMessageRaw :=
  { messageID := 7
    date := 123
    text := ""
    caption := "a caption"
    chat := { id := -100500, title := "Jobs Channel", chatType := "channel" }
    photo := [{ fileID := "f1" }]
    document := none }

/-- A channel-post update wrapping `rawMedia`. -/
def updMedia : TelegramUpdate :=
  { updateID := 1
    message := none
    channelPost := some rawMedia }

set_option maxRecDepth 100000

theorem data_mk (l : List Char) : (String.mk l).data = l := rfl

theorem isPrefixOfCL_self_append (sub rest : List Char) :
    isPrefixOfCL sub (sub ++ rest) = true := by
  induction sub with
  | nil => simp [isPrefixOfCL]
  | cons c cs ih => simp [isPrefixOfCL, ih]

theorem containsSub_middle (a sub b : List Char) :
    containsSub (a ++ (sub ++ b)) sub = true := by
  induction a with
  | nil =>
    unfold containsSub
    simp only [List.nil_append]
    rw [isPrefixOfCL_self_append]
    simp
  | cons c cs ih =>
    cases h : isPrefixOfCL sub (c :: (cs ++ (sub ++ b))) <;>
      simp [containsSub, h, ih]

/-- C7: every text containing the substring "intern" in any letter
casing is rejected by `isRelevant` (the internship keyword rule fires
first and short-circuits to `false`). -/
theorem isRelevant_false_of_intern (s : String) (a w b : List Char)
    (hdecomp : s.data = a ++ w ++ b)
    (hw : w.map goToLower = "intern".data) :
    isRelevant s = false := by
  have hl : (toLowerStr s).data =
      a.map goToLower ++ (w.map goToLower ++ b.map goToLower) := by
    simp [toLowerStr, hdecomp]
  have h1 : strContains (toLowerStr s) "intern" = true := by
    unfold strContains
    rw [hl, hw]
    exact containsSub_middle _ _ _
  have hc : containsAny (toLowerStr s) internshipKeywords = true := by
    simp [containsAny, internshipKeywords, h1]
  simp [isRelevant, hc]

/-- C7 witness: "Hiring Interns now" contains "Intern", and is
classified irrelevant. -/
theorem isRelevant_false_of_intern_witness :
    ("Hiring Interns now".data =
      "Hiring ".data ++ "Intern".data ++ "s now".data) ∧
    ("Intern".data.map goToLower = "intern".data) ∧
    isRelevant "Hiring Interns now" = false :=
  ⟨by decide, by decide,
   isRelevant_false_of_intern "Hiring Interns now" "Hiring ".data
     "Intern".data "s now".data (by decide) (by decide)⟩

/-- C6: a text whose lowercasing contains none of the internship,
student-only, experience-reject or explicit non-2025 patterns and does
not contain the literal "2025" is classified relevant: absence of any
cohort-year signal is acceptance. -/
theorem isRelevant_true_of_no_reject (s : String)
    (h1 : containsAny (toLowerStr s) internshipKeywords = false)
    (h2 : containsAny (toLowerStr s) studentKeywords = false)
    (h3 : containsAny (toLowerStr s) experienceRejectPatterns = false)
    (h4 : containsAny (toLowerStr s) explicitNon2025Patterns = false)
    (h5 : strContains (toLowerStr s) "2025" = false) :
    isRelevant s = true := by
  simp [isRelevant, h1, h2, h3, excludes2025, h4, h5]

/-- C6 witness: a year-free posting is relevant. -/
theorem isRelevant_true_of_no_reject_witness :
    (containsAny (toLowerStr "Backend engineer role, apply now")
      internshipKeywords = false) ∧
    isRelevant "Backend engineer role, apply now" = true :=
  ⟨by decide,
   isRelevant_true_of_no_reject "Backend engineer role, apply now"
     (by decide) (by decide) (by decide) (by decide) (by decide)⟩

/-- C8: the non-2025 rejection is exactly membership of the fixed
explicit pattern list (the internal check of the literal "2025" never
changes the result), and a text containing "2026 batch" with no other
reject signal is classified relevant. -/
theorem excludes2025_eq_spec :
    (∀ text : String, excludes2025 text = excludes2025Spec text) ∧
    isRelevant "Hiring for 2026 batch, backend role" = true := by
  constructor
  · intro text
    cases h : containsAny text explicitNon2025Patterns <;>
      simp [excludes2025, excludes2025Spec, h]
  · decide

/-- C10 counterexample: "9223372036854775808" is not a parseable
`int64` (range error), yet `mustGetPersonalChatID` returns the clamped
maximum, not 0 as claimed. -/
theorem mustGetPersonalChatID_range_counterexample :
    (parseInt64 "9223372036854775808").2 = false ∧
    mustGetPersonalChatID "9223372036854775808" = 9223372036854775807 ∧
    mustGetPersonalChatID "9223372036854775808" ≠ 0 :=
  ⟨by decide, by decide, by decide⟩

/-- C10 amended: when `PERSONAL_CHAT_ID` is unset (empty) or
syntactically malformed, the discarded parse error leaves chat id 0,
and every send attempted by the worker is addressed to whatever
`mustGetPersonalChatID` yields; a syntactically valid but out-of-range
value is instead clamped to the `int64` extreme. -/
theorem mustGetPersonalChatID_spec :
    (mustGetPersonalChatID "" = 0) ∧
    (∀ s : String, int64SyntaxOK s = false → mustGetPersonalChatID s = 0) ∧
    (∀ (env : WorkerEnv) (store : Store) (doc : String × TelegramMessage)
       (p : Int × String), p ∈ (processOne env store doc).2 →
       p.1 = mustGetPersonalChatID env.personalChatID) ∧
    (mustGetPersonalChatID "9223372036854775808" = 9223372036854775807) := by
  refine ⟨by decide, ?_, ?_, by decide⟩
  · intro s hs
    unfold mustGetPersonalChatID parseInt64
    unfold int64SyntaxOK at hs
    rcases hds : s.data with _ | ⟨c, rest⟩
    · rfl
    · rw [hds] at hs
      dsimp only at hs ⊢
      cases hempty : (if c == '-' || c == '+' then rest else c :: rest).isEmpty <;>
        cases hall : (if c == '-' || c == '+' then rest else c :: rest).all isDigitCh
      all_goals try (rw [hempty, hall] at hs; simp at hs)
      all_goals simp
  · intro env store doc p hp
    unfold processOne at hp
    dsimp only at hp
    split at hp
    · simp at hp
    · split at hp
      · simp at hp
      · split at hp
        · simp at hp
        · simp at hp
        · simp at hp
          rw [hp]

/-- C10 witness: a malformed value yields destination chat id 0. -/
theorem mustGetPersonalChatID_spec_witness :
    (int64SyntaxOK "abc" = false) ∧ mustGetPersonalChatID "abc" = 0 :=
  ⟨by decide, mustGetPersonalChatID_spec.2.1 "abc" (by decide)⟩

/-- C9: the webhook always acknowledges with HTTP 200, and for every
accepted update (POST, decodable, with a selected message carrying text,
caption or media) whose store write succeeds, the stored document id is
"{chat.id}_{message_id}" and the record copies only the update's `text`
field into `message_text` (a caption is never copied), with all
processing fields unset/false. -/
theorem telegramWebhookHandler_spec :
    (∀ (clientOK storeOK : Bool) (now : Int) (method : String)
       (body : Option TelegramUpdate),
       (telegramWebhookHandler clientOK storeOK now method body).1 = 200) ∧
    (∀ (clientOK storeOK : Bool) (now : Int) (u : TelegramUpdate)
       (msg : TelegramMessageRaw),
       selectMessage u = some msg →
       (msg.text ≠ "" ∨ msg.caption ≠ "" ∨ msg.document.isSome = true ∨
         msg.photo ≠ []) →
       clientOK = true → storeOK = true →
       (telegramWebhookHandler clientOK storeOK now "POST" (some u)).2 =
         some (intToStr msg.chat.id ++ "_" ++ intToStr msg.messageID,
           { channelID := msg.chat.id
             channelName := msg.chat.title
             messageID := msg.messageID
             messageText := msg.text
             messageTimestamp := msg.date
             receivedAt := now
             isProcessed := false
             isRelevant := none
             processedAt := none
             jobFingerprint := none
             isForwarded := false })) := by
  constructor
  · intro clientOK storeOK now method body
    unfold telegramWebhookHandler
    dsimp only
    split
    · rfl
    · split
      · rfl
      · split
        · rfl
        · split
          · rfl
          · split
            · rfl
            · split
              · rfl
              · rfl
  · intro clientOK storeOK now u msg hsel haccept hclient hstore
    subst hclient
    subst hstore
    have hcond :
        ¬((msg.text = "" ∧ msg.caption = "") ∧
          msg.document = none ∧ msg.photo = []) := by
      rintro ⟨⟨ht, hc⟩, hd, hp⟩
      rcases haccept with h | h | h | h
      · exact h ht
      · exact h hc
      · rw [hd] at h
        simp at h
      · exact h hp
    simp [telegramWebhookHandler, hsel, hcond]

/-- C9 witness: a media post with a caption and no text is stored under
"{chat.id}_{message_id}" with empty `message_text`. -/
theorem telegramWebhookHandler_spec_witness :
    (selectMessage updMedia = some rawMedia) ∧
    (rawMedia.text = "" ∧ rawMedia.caption = "a caption") ∧
    (intToStr rawMedia.chat.id ++ "_" ++ intToStr rawMedia.messageID =
      "-100500_7") ∧
    (telegramWebhookHandler true true 99 "POST" (some updMedia)).2 =
      some (intToStr rawMedia.chat.id ++ "_" ++ intToStr rawMedia.messageID,
        { channelID := rawMedia.chat.id
          channelName := rawMedia.chat.title
          messageID := rawMedia.messageID
          messageText := rawMedia.text
          messageTimestamp := rawMedia.date
          receivedAt := 99
          isProcessed := false
          isRelevant := none
          processedAt := none
          jobFingerprint := none
          isForwarded := false }) :=
  ⟨by decide, ⟨by decide, by decide⟩, by decide,
   telegramWebhookHandler_spec.2 true true 99 updMedia rawMedia (by decide)
     (by right; right; right; decide) rfl rfl⟩

theorem getDoc_updateProcessingResult_self (store : Store) (k : String)
    (rel : Bool) (fp : String) (now : Int) :
    getDoc (updateProcessingResult store k rel fp now) k =
      (getDoc store k).map (fun m =>
        { m with
            isProcessed := true
            isRelevant := some rel
            processedAt := some now
            jobFingerprint := some fp }) := by
  induction store with
  | nil => rfl
  | cons p rest ih =>
    by_cases h : p.1 = k <;>
      simp [updateProcessingResult, getDoc, h] <;>
      simpa [updateProcessingResult] using ih

theorem getDoc_markForwarded_self (store : Store) (k : String) :
    getDoc (markForwarded store k) k =
      (getDoc store k).map (fun m => { m with isForwarded := true }) := by
  induction store with
  | nil => rfl
  | cons p rest ih =>
    by_cases h : p.1 = k <;>
      simp [markForwarded, getDoc, h] <;>
      simpa [markForwarded] using ih

theorem updateProcessingResult_unforwarded (store : Store) (k : String)
    (rel : Bool) (fp : String) (now : Int)
    (h : ∀ p ∈ store, p.2.isForwarded = false) :
    ∀ p ∈ updateProcessingResult store k rel fp now,
      p.2.isForwarded = false := by
  intro p hp
  rcases List.mem_map.mp hp with ⟨q, hq, hq2⟩
  by_cases hk : q.1 = k <;> simp [hk] at hq2 <;> rw [← hq2] <;>
    simpa using h q hq

theorem hasForwardedFp_false (store : Store) (fp : String)
    (h : ∀ p ∈ store, p.2.isForwarded = false) :
    hasForwardedFp store fp = false := by
  unfold hasForwardedFp
  rw [List.any_eq_false]
  intro p hp
  simp [h p hp]

theorem processOne_forward_case (env : WorkerEnv) (store : Store)
    (docID : String) (msg : TelegramMessage)
    (hdec : env.decodeOK docID = true)
    (hupd : env.updateOK docID = true)
    (hrel : isRelevant msg.messageText = true)
    (hq : env.queryOK (computeFingerprint msg.messageText) = true)
    (hnofp : hasForwardedFp
      (updateProcessingResult store docID true
        (computeFingerprint msg.messageText) env.now)
      (computeFingerprint msg.messageText) = false)
    (hmark : env.markOK docID = true) :
    processOne env store (docID, msg) =
      (markForwarded
        (updateProcessingResult store docID true
          (computeFingerprint msg.messageText) env.now) docID,
       [(mustGetPersonalChatID env.personalChatID, formatMessage msg)]) := by
  unfold processOne isFingerprintForwarded
  dsimp only
  rw [hdec, hupd, hrel, hq]
  simp [hnofp, hmark]

/-- C1 counterexample: with every store operation succeeding but the
outbound send failing, `processOne` still marks the record forwarded —
the claim that a failed send leaves `is_forwarded = false` is false on
the code, which discards the error of `sendTextMessage`. -/
theorem processOne_send_failure_counterexample :
    (processOne envSendFail [("10_1", recJob)] ("10_1", recJob)).2 =
      [(777, formatMessage recJob)] ∧
    envSendFail.sendOK 777 (formatMessage recJob) = false ∧
    (getDoc (processOne envSendFail [("10_1", recJob)] ("10_1", recJob)).1
        "10_1").map (fun m => m.isForwarded) = some true :=
  ⟨rfl, rfl, rfl⟩

/-- C1 amended: for a relevant, non-duplicate record the outbound send
is attempted exactly once, but `markForwarded` is invoked after the
send attempt unconditionally — the send's outcome (`env.sendOK` is
unconstrained here) never influences the final state, so the record
ends with `is_forwarded = true` whenever the mark write itself
succeeds, even if the send failed. -/
theorem processOne_marks_regardless_of_send (env : WorkerEnv)
    (store : Store) (docID : String) (msg : TelegramMessage)
    (hdec : env.decodeOK docID = true)
    (hupd : env.updateOK docID = true)
    (hrel : isRelevant msg.messageText = true)
    (hq : env.queryOK (computeFingerprint msg.messageText) = true)
    (hunf : ∀ p ∈ store, p.2.isForwarded = false)
    (hmark : env.markOK docID = true)
    (hdoc : (getDoc store docID).isSome = true) :
    (processOne env store (docID, msg)).2 =
      [(mustGetPersonalChatID env.personalChatID, formatMessage msg)] ∧
    ∃ m', getDoc (processOne env store (docID, msg)).1 docID = some m' ∧
      m'.isForwarded = true := by
  have hnofp : hasForwardedFp
      (updateProcessingResult store docID true
        (computeFingerprint msg.messageText) env.now)
      (computeFingerprint msg.messageText) = false :=
    hasForwardedFp_false _ _
      (updateProcessingResult_unforwarded store docID true _ env.now hunf)
  rw [processOne_forward_case env store docID msg hdec hupd hrel hq hnofp hmark]
  refine ⟨rfl, ?_⟩
  rcases Option.isSome_iff_exists.mp hdoc with ⟨m0, hm0⟩
  refine ⟨{ m0 with
      isProcessed := true
      isRelevant := some true
      processedAt := some env.now
      jobFingerprint := some (computeFingerprint msg.messageText)
      isForwarded := true }, ?_, rfl⟩
  dsimp only
  rw [getDoc_markForwarded_self, getDoc_updateProcessingResult_self, hm0]
  rfl

/-- C1 witness: the amended theorem applied at a concrete store and an
oracle whose send fails. -/
theorem processOne_marks_regardless_of_send_witness :
    envSendFail.sendOK 777 (formatMessage recJob) = false ∧
    ((processOne envSendFail [("10_1", recJob)] ("10_1", recJob)).2 =
      [(mustGetPersonalChatID envSendFail.personalChatID,
        formatMessage recJob)] ∧
     ∃ m', getDoc
        (processOne envSendFail [("10_1", recJob)] ("10_1", recJob)).1
        "10_1" = some m' ∧ m'.isForwarded = true) :=
  ⟨rfl,
   processOne_marks_regardless_of_send envSendFail [("10_1", recJob)]
     "10_1" recJob rfl rfl (by decide) rfl (by decide) rfl (by decide)⟩

theorem processOne_update_failed_forward (env : WorkerEnv) (store : Store)
    (docID : String) (msg : TelegramMessage)
    (hdec : env.decodeOK docID = true)
    (hupd : env.updateOK docID = false)
    (hrel : isRelevant msg.messageText = true)
    (hq : env.queryOK (computeFingerprint msg.messageText) = true)
    (hnofp : hasForwardedFp store (computeFingerprint msg.messageText) = false)
    (hmark : env.markOK docID = true) :
    processOne env store (docID, msg) =
      (markForwarded store docID,
       [(mustGetPersonalChatID env.personalChatID, formatMessage msg)]) := by
  unfold processOne isFingerprintForwarded
  dsimp only
  rw [hdec, hupd, hrel, hq]
  simp [hnofp, hmark]

theorem processOne_dup_case (env : WorkerEnv) (store : Store)
    (docID : String) (msg : TelegramMessage)
    (hdec : env.decodeOK docID = true)
    (hupd : env.updateOK docID = true)
    (hrel : isRelevant msg.messageText = true)
    (hq : env.queryOK (computeFingerprint msg.messageText) = true)
    (hfp : hasForwardedFp
      (updateProcessingResult store docID true
        (computeFingerprint msg.messageText) env.now)
      (computeFingerprint msg.messageText) = true) :
    processOne env store (docID, msg) =
      (updateProcessingResult store docID true
        (computeFingerprint msg.messageText) env.now, []) := by
  unfold processOne isFingerprintForwarded
  dsimp only
  rw [hdec, hupd, hrel, hq]
  simp [hfp]

theorem getDoc_updateProcessingResult_isForwarded (store : Store)
    (k : String) (rel : Bool) (fp : String) (now : Int) (d : String) :
    (getDoc (updateProcessingResult store k rel fp now) d).map
      (fun m => m.isForwarded) =
    (getDoc store d).map (fun m => m.isForwarded) := by
  induction store with
  | nil => rfl
  | cons p rest ih =>
    simp only [updateProcessingResult, List.map]
    by_cases h1 : p.1 = k
    · rw [if_pos h1]
      by_cases h2 : p.1 = d
      · rw [getDoc, getDoc, if_pos h2, if_pos h2]
        rfl
      · rw [getDoc, getDoc, if_neg h2, if_neg h2]
        exact ih
    · rw [if_neg h1]
      rw [getDoc, getDoc]
      by_cases h2 : p.1 = d
      · rw [if_pos h2, if_pos h2]
      · rw [if_neg h2, if_neg h2]
        exact ih

/-- C4: on a single sequential pass over two unprocessed, relevant
records with distinct keys and equal fingerprints (all store operations
and sends succeeding), the first ends processed and forwarded and the
second ends processed but not forwarded — exactly one is forwarded;
moreover a dedup check that errors or returns true stops a record
without any send and without changing any forwarded flag. -/
theorem dedup_single_pass :
    (∀ (env : WorkerEnv) (k1 k2 : String) (A B : TelegramMessage),
      (∀ d, env.decodeOK d = true) →
      (∀ d, env.updateOK d = true) →
      (∀ f, env.queryOK f = true) →
      (∀ c t, env.sendOK c t = true) →
      (∀ d, env.markOK d = true) →
      k1 ≠ k2 →
      A.isProcessed = false → B.isProcessed = false →
      A.isForwarded = false → B.isForwarded = false →
      isRelevant A.messageText = true → isRelevant B.messageText = true →
      computeFingerprint A.messageText = computeFingerprint B.messageText →
      (∃ a, getDoc (runWorkerPass env [(k1, A), (k2, B)]).1 k1 = some a ∧
         a.isProcessed = true ∧ a.isForwarded = true) ∧
      (∃ b, getDoc (runWorkerPass env [(k1, A), (k2, B)]).1 k2 = some b ∧
         b.isProcessed = true ∧ b.isForwarded = false)) ∧
    (∀ (env : WorkerEnv) (store : Store) (docID : String)
       (msg : TelegramMessage),
      env.decodeOK docID = true →
      isRelevant msg.messageText = true →
      isFingerprintForwarded env
        (if env.updateOK docID = true then
          updateProcessingResult store docID (isRelevant msg.messageText)
            (computeFingerprint msg.messageText) env.now
         else store)
        (computeFingerprint msg.messageText) ≠ some false →
      (processOne env store (docID, msg)).2 = [] ∧
      (∀ d, (getDoc (processOne env store (docID, msg)).1 d).map
          (fun m => m.isForwarded) =
        (getDoc store d).map (fun m => m.isForwarded))) := by
  constructor
  · intro env k1 k2 A B hdec hupd hq hsend hmark hk hA1 hB1 hA2 hB2
      hArel hBrel hfp
    have hk' : ¬(k2 = k1) := fun h => hk h.symm
    have hunf0 : ∀ p ∈ ([(k1, A), (k2, B)] : Store),
        p.2.isForwarded = false := by
      intro p hp
      rcases List.mem_cons.mp hp with rfl | hp
      · exact hA2
      · rcases List.mem_singleton.mp hp with rfl
        exact hB2
    have h1 := processOne_forward_case env [(k1, A), (k2, B)] k1 A (hdec k1)
      (hupd k1) hArel (hq _)
      (hasForwardedFp_false _ _
        (updateProcessingResult_unforwarded _ _ _ _ _ hunf0)) (hmark k1)
    have hS1 : markForwarded
        (updateProcessingResult [(k1, A), (k2, B)] k1 true
          (computeFingerprint A.messageText) env.now) k1 =
        [(k1, { A with isProcessed := true, isRelevant := some true, processedAt := some env.now, jobFingerprint := some (computeFingerprint A.messageText), isForwarded := true }), (k2, B)] := by
      simp [updateProcessingResult, markForwarded, hk']
    have hfp2 : hasForwardedFp
        (updateProcessingResult
          [(k1, { A with isProcessed := true, isRelevant := some true, processedAt := some env.now, jobFingerprint := some (computeFingerprint A.messageText), isForwarded := true }), (k2, B)] k2 true
          (computeFingerprint B.messageText) env.now)
        (computeFingerprint B.messageText) = true := by
      simp [updateProcessingResult, hasForwardedFp, hk, hfp]
    have h2 := processOne_dup_case env
      [(k1, { A with isProcessed := true, isRelevant := some true, processedAt := some env.now, jobFingerprint := some (computeFingerprint A.messageText), isForwarded := true }), (k2, B)] k2 B (hdec k2) (hupd k2)
      hBrel (hq _) hfp2
    have hS2 : updateProcessingResult
        [(k1, { A with isProcessed := true, isRelevant := some true, processedAt := some env.now, jobFingerprint := some (computeFingerprint A.messageText), isForwarded := true }), (k2, B)] k2 true
        (computeFingerprint B.messageText) env.now =
        [(k1, { A with isProcessed := true, isRelevant := some true, processedAt := some env.now, jobFingerprint := some (computeFingerprint A.messageText), isForwarded := true }),
         (k2, { B with isProcessed := true, isRelevant := some true, processedAt := some env.now, jobFingerprint := some (computeFingerprint B.messageText) })] := by
      simp [updateProcessingResult, hk]
    have hfetch : fetchUnprocessed [(k1, A), (k2, B)] 50 =
        [(k1, A), (k2, B)] := by
      simp [fetchUnprocessed, hA1, hB1]
    have hrun : (runWorkerPass env [(k1, A), (k2, B)]).1 =
        [(k1, { A with isProcessed := true, isRelevant := some true, processedAt := some env.now, jobFingerprint := some (computeFingerprint A.messageText), isForwarded := true }),
         (k2, { B with isProcessed := true, isRelevant := some true, processedAt := some env.now, jobFingerprint := some (computeFingerprint B.messageText) })] := by
      unfold runWorkerPass
      rw [hfetch]
      simp only [List.foldl]
      try dsimp only
      rw [h1]
      try dsimp only
      rw [hS1, h2]
      try dsimp only
      rw [hS2]
    rw [hrun]
    constructor
    · refine ⟨{ A with isProcessed := true, isRelevant := some true, processedAt := some env.now, jobFingerprint := some (computeFingerprint A.messageText), isForwarded := true }, ?_, rfl, rfl⟩
      simp [getDoc]
    · refine ⟨{ B with isProcessed := true, isRelevant := some true, processedAt := some env.now, jobFingerprint := some (computeFingerprint B.messageText) }, ?_, rfl, hB2⟩
      simp [getDoc, hk]
  · intro env store docID msg hdec hrel hv
    rw [hrel] at hv
    unfold processOne isFingerprintForwarded
    dsimp only
    rw [hdec, hrel]
    rcases hval : (if env.queryOK (computeFingerprint msg.messageText) = true
        then some (hasForwardedFp
          (if env.updateOK docID = true then
            updateProcessingResult store docID true
              (computeFingerprint msg.messageText) env.now
           else store) (computeFingerprint msg.messageText))
        else none) with _ | b
    · simp only [isFingerprintForwarded] at hv
      simp [hval]
      intro d
      by_cases hu : env.updateOK docID = true
      · simp [hu, getDoc_updateProcessingResult_isForwarded]
      · simp [hu]
    · rcases b with _ | _
      · exfalso
        apply hv
        unfold isFingerprintForwarded
        exact hval
      · simp [hval]
        intro d
        by_cases hu : env.updateOK docID = true
        · simp [hu, getDoc_updateProcessingResult_isForwarded]
        · simp [hu]

/-- C4 witness: the dedup pass applied to the spec's two-channel
repost scenario. -/
theorem dedup_single_pass_witness :
    (∃ a, getDoc
        (runWorkerPass envAllOK [("10_1", recJob), ("20_1", recJobB)]).1
        "10_1" = some a ∧ a.isProcessed = true ∧ a.isForwarded = true) ∧
    (∃ b, getDoc
        (runWorkerPass envAllOK [("10_1", recJob), ("20_1", recJobB)]).1
        "20_1" = some b ∧ b.isProcessed = true ∧ b.isForwarded = false) :=
  dedup_single_pass.1 envAllOK "10_1" "20_1" recJob recJobB
    (fun _ => rfl) (fun _ => rfl) (fun _ => rfl) (fun _ _ => rfl)
    (fun _ => rfl) (by decide) rfl rfl rfl rfl (by decide) (by decide) rfl

/-- C3 counterexample: when the classification store-update fails for a
record, the worker does not skip it — the dedup check still runs and
the forward is still attempted (and the record, left unprocessed, is
even marked forwarded), contradicting the claim that no forward attempt
is made. -/
theorem updateFailure_counterexample :
    envUpdateFail.updateOK "10_1" = false ∧
    (processOne envUpdateFail [("10_1", recJob)] ("10_1", recJob)).2 =
      [(777, formatMessage recJob)] ∧
    (getDoc (processOne envUpdateFail [("10_1", recJob)] ("10_1", recJob)).1
        "10_1").map (fun m => m.isProcessed) = some false :=
  ⟨rfl, rfl, rfl⟩

/-- C3 amended: a failed classification store-update does not skip the
record — its error is discarded, so the dedup check and the forward
attempt still happen for it (it can even end forwarded while still
unprocessed); the record does remain unprocessed for the next run, and
the failure does not prevent processing of the remaining records in the
batch (the second record is still fully processed and forwarded). -/
theorem updateFailure_does_not_skip (env : WorkerEnv) (k1 k2 : String)
    (A B : TelegramMessage)
    (hdec : ∀ d, env.decodeOK d = true)
    (hupd1 : env.updateOK k1 = false)
    (hupd2 : env.updateOK k2 = true)
    (hq : ∀ f, env.queryOK f = true)
    (hmark : ∀ d, env.markOK d = true)
    (hk : k1 ≠ k2)
    (hA1 : A.isProcessed = false) (hB1 : B.isProcessed = false)
    (hA2 : A.isForwarded = false) (hB2 : B.isForwarded = false)
    (hAfp : A.jobFingerprint = none)
    (hArel : isRelevant A.messageText = true)
    (hBrel : isRelevant B.messageText = true) :
    (runWorkerPass env [(k1, A), (k2, B)]).2 =
      [(mustGetPersonalChatID env.personalChatID, formatMessage A),
       (mustGetPersonalChatID env.personalChatID, formatMessage B)] ∧
    (∃ a, getDoc (runWorkerPass env [(k1, A), (k2, B)]).1 k1 = some a ∧
       a.isProcessed = false ∧ a.isForwarded = true) ∧
    (∃ b, getDoc (runWorkerPass env [(k1, A), (k2, B)]).1 k2 = some b ∧
       b.isProcessed = true ∧ b.isForwarded = true) := by
  have hk' : ¬(k2 = k1) := fun h => hk h.symm
  have hunf0 : ∀ p ∈ ([(k1, A), (k2, B)] : Store),
      p.2.isForwarded = false := by
    intro p hp
    rcases List.mem_cons.mp hp with rfl | hp
    · exact hA2
    · rcases List.mem_singleton.mp hp with rfl
      exact hB2
  have h1 := processOne_update_failed_forward env [(k1, A), (k2, B)] k1 A
    (hdec k1) hupd1 hArel (hq _) (hasForwardedFp_false _ _ hunf0) (hmark k1)
  have hS1 : markForwarded [(k1, A), (k2, B)] k1 =
      [(k1, { A with isForwarded := true }), (k2, B)] := by
    simp [markForwarded, hk']
  have hnofp2 : hasForwardedFp
      (updateProcessingResult
        [(k1, { A with isForwarded := true }), (k2, B)] k2 true
        (computeFingerprint B.messageText) env.now)
      (computeFingerprint B.messageText) = false := by
    simp [updateProcessingResult, hasForwardedFp, hk, hAfp, hB2]
  have h2 := processOne_forward_case env
    [(k1, { A with isForwarded := true }), (k2, B)] k2 B (hdec k2) hupd2
    hBrel (hq _) hnofp2 (hmark k2)
  have hS2 : markForwarded
      (updateProcessingResult
        [(k1, { A with isForwarded := true }), (k2, B)] k2 true
        (computeFingerprint B.messageText) env.now) k2 =
      [(k1, { A with isForwarded := true }),
       (k2, { B with isProcessed := true, isRelevant := some true, processedAt := some env.now, jobFingerprint := some (computeFingerprint B.messageText), isForwarded := true })] := by
    simp [updateProcessingResult, markForwarded, hk]
  have hfetch : fetchUnprocessed [(k1, A), (k2, B)] 50 =
      [(k1, A), (k2, B)] := by
    simp [fetchUnprocessed, hA1, hB1]
  have hrun : runWorkerPass env [(k1, A), (k2, B)] =
      ([(k1, { A with isForwarded := true }),
        (k2, { B with isProcessed := true, isRelevant := some true, processedAt := some env.now, jobFingerprint := some (computeFingerprint B.messageText), isForwarded := true })],
       [(mustGetPersonalChatID env.personalChatID, formatMessage A),
        (mustGetPersonalChatID env.personalChatID, formatMessage B)]) := by
    unfold runWorkerPass
    rw [hfetch]
    simp only [List.foldl]
    try dsimp only
    rw [h1]
    try dsimp only
    rw [hS1, h2]
    try dsimp only
    rw [hS2]
    simp
  rw [hrun]
  refine ⟨rfl, ⟨{ A with isForwarded := true }, ?_, hA1, rfl⟩,
    ⟨{ B with isProcessed := true, isRelevant := some true, processedAt := some env.now, jobFingerprint := some (computeFingerprint B.messageText), isForwarded := true }, ?_, rfl, rfl⟩⟩
  · simp [getDoc]
  · simp [getDoc, hk]

/-- C3 witness: the amended theorem at a concrete batch whose first
record's store-update fails. -/
theorem updateFailure_does_not_skip_witness :
    envUpdateFailOne.updateOK "10_1" = false ∧
    ((runWorkerPass envUpdateFailOne [("10_1", recJob), ("20_1", recJobB)]).2 =
      [(mustGetPersonalChatID envUpdateFailOne.personalChatID,
        formatMessage recJob),
       (mustGetPersonalChatID envUpdateFailOne.personalChatID,
        formatMessage recJobB)] ∧
     (∃ a, getDoc
        (runWorkerPass envUpdateFailOne
          [("10_1", recJob), ("20_1", recJobB)]).1 "10_1" = some a ∧
        a.isProcessed = false ∧ a.isForwarded = true) ∧
     (∃ b, getDoc
        (runWorkerPass envUpdateFailOne
          [("10_1", recJob), ("20_1", recJobB)]).1 "20_1" = some b ∧
        b.isProcessed = true ∧ b.isForwarded = true)) :=
  ⟨by decide,
   updateFailure_does_not_skip envUpdateFailOne "10_1" "20_1" recJob recJobB
     (fun _ => rfl) (by decide) (by decide) (fun _ => rfl) (fun _ => rfl)
     (by decide) rfl rfl rfl rfl rfl (by decide) (by decide)⟩

theorem hexChars_length (bs : List Nat) :
    (hexChars bs).length = 2 * bs.length := by
  induction bs with
  | nil => rfl
  | cons b rest ih =>
    simp [hexChars, ih]
    omega

theorem sha256Bytes_length (msg : List Nat) :
    (sha256Bytes msg).length = 32 := by
  unfold sha256Bytes
  simp [wordBytes]

theorem sha256Bytes_le (msg : List Nat) :
    ∀ b ∈ sha256Bytes msg, b ≤ 255 := by
  have hw : ∀ (w : Nat), ∀ b ∈ wordBytes w, b ≤ 255 := by
    intro w b hb
    simp only [wordBytes, List.mem_cons, List.not_mem_nil, or_false] at hb
    rcases hb with rfl | rfl | rfl | rfl <;> exact Nat.and_le_right
  intro b hb
  unfold sha256Bytes at hb
  simp only [List.mem_append] at hb
  rcases hb with ((((((h | h) | h) | h) | h) | h) | h) | h <;> exact hw _ _ h

theorem hexDigit_mem (n : Nat) (h : n < 16) : hexDigit n ∈ hexAlphabet := by
  have hfin : ∀ i : Fin 16, hexDigit i.val ∈ hexAlphabet := by decide
  exact hfin ⟨n, h⟩

theorem hexChars_mem (bs : List Nat) (hb : ∀ b ∈ bs, b ≤ 255) :
    ∀ c ∈ hexChars bs, c ∈ hexAlphabet := by
  induction bs with
  | nil => intro c hc; cases hc
  | cons b rest ih =>
    intro c hc
    have hble : b ≤ 255 := hb b (by simp)
    rcases List.mem_cons.mp hc with rfl | hc2
    · refine hexDigit_mem _ ?_
      have : b / 16 ≤ 255 / 16 := Nat.div_le_div_right hble
      omega
    · rcases List.mem_cons.mp hc2 with rfl | hc3
      · exact hexDigit_mem _ (Nat.mod_lt _ (by omega))
      · exact ih (fun x hx => hb x (by simp [hx])) c hc3

/-- C5: the fingerprint depends only on the first 400 characters of the
normalized text — any two texts whose normalized forms agree there get
equal fingerprints — and it is always a 64-character string over the
lowercase hexadecimal alphabet (the hex rendering of a 256-bit SHA-256
digest). -/
theorem computeFingerprint_spec :
    (∀ t1 t2 : String,
      (normalizeText t1).data.take 400 = (normalizeText t2).data.take 400 →
      computeFingerprint t1 = computeFingerprint t2) ∧
    (∀ t : String, (computeFingerprint t).length = 64 ∧
      ∀ c ∈ (computeFingerprint t).data, c ∈ hexAlphabet) := by
  constructor
  · intro t1 t2 h
    have hbytes : ((normalizeText t1).data.map Char.toNat).take 400 =
        ((normalizeText t2).data.map Char.toNat).take 400 := by
      rw [← List.map_take, ← List.map_take, h]
    unfold computeFingerprint
    dsimp only
    rw [hbytes]
  · intro t
    constructor
    · show (hexChars (sha256Bytes _)).length = 64
      rw [hexChars_length, sha256Bytes_length]
    · intro c hc
      exact hexChars_mem _ (sha256Bytes_le _) c hc

/-- C5 witness: the spec's example — a text with an URL and different
casing fingerprints identically to its canonical form. -/
theorem computeFingerprint_spec_witness :
    ((normalizeText "Visit http://x.com NOW").data.take 400 =
      (normalizeText "visit now").data.take 400) ∧
    computeFingerprint "Visit http://x.com NOW" =
      computeFingerprint "visit now" :=
  ⟨by decide, computeFingerprint_spec.1 _ _ (by decide)⟩

theorem map_id_on (f : Char → Char) :
    ∀ (l : List Char), (∀ c ∈ l, f c = c) → l.map f = l := by
  intro l
  induction l with
  | nil => intro _; rfl
  | cons c cs ih =>
    intro h
    simp only [List.map]
    rw [h c (by simp), ih (fun x hx => h x (by simp [hx]))]

theorem goToLower_id (c : Char)
    (h : isLowerAlnumB c = true ∨ c = ' ') : goToLower c = c := by
  unfold goToLower
  rcases h with h | rfl
  · simp only [isLowerAlnumB, Bool.or_eq_true, decide_eq_true_eq] at h
    rw [if_neg]
    omega
  · rw [if_neg]
    decide

theorem ws_is_space (c : Char)
    (h : isLowerAlnumB c = true ∨ c = ' ')
    (hs : isRegexSpace c = true) : c = ' ' := by
  rcases h with h | rfl
  · simp only [isRegexSpace, Bool.or_eq_true, beq_iff_eq] at hs
    rcases hs with (((rfl | rfl) | rfl) | rfl) | rfl <;>
      exact absurd h (by decide)
  · rfl

theorem nonTextRepl_id (c : Char)
    (h : isLowerAlnumB c = true ∨ c = ' ') : nonTextRepl c = c := by
  unfold nonTextRepl
  rcases h with h | rfl
  · rw [if_pos]
    simp [h]
  · rw [if_pos]
    decide

theorem no_colon (t : List Char)
    (h : ∀ c ∈ t, isLowerAlnumB c = true ∨ c = ' ') : ':' ∉ t := by
  intro hc
  rcases h ':' hc with h2 | h2
  · exact absurd h2 (by decide)
  · exact absurd h2 (by decide)

theorem no_at (t : List Char)
    (h : ∀ c ∈ t, isLowerAlnumB c = true ∨ c = ' ') : '@' ∉ t := by
  intro hc
  rcases h '@' hc with h2 | h2
  · exact absurd h2 (by decide)
  · exact absurd h2 (by decide)

theorem mem_of_mem_dropCL (n : Nat) (l : List Char) (a : Char)
    (h : a ∈ l.drop n) : a ∈ l := by
  induction l generalizing n with
  | nil => simp at h
  | cons c cs ih =>
    cases n with
    | zero => exact h
    | succ m => exact List.mem_cons_of_mem _ (ih m h)

theorem replAllGo_id (m : Char → List Char → Option Nat) (r : List Char) :
    ∀ (fuel : Nat) (t : List Char),
      (∀ pre c cs, t = pre ++ c :: cs → m c cs = none) →
      replAllGo m r fuel t = t := by
  intro fuel
  induction fuel with
  | zero => intro t _; rfl
  | succ f ih =>
    intro t h
    cases t with
    | nil => rfl
    | cons c cs =>
      have hnone : m c cs = none := h [] c cs rfl
      unfold replAllGo
      rw [hnone]
      rw [ih cs (fun pre c' cs' hpre => h (c :: pre) c' cs' (by rw [hpre]; rfl))]

theorem replAll_id (m : Char → List Char → Option Nat) (r : List Char)
    (t : List Char)
    (h : ∀ pre c cs, t = pre ++ c :: cs → m c cs = none) :
    replAll m r t = t :=
  replAllGo_id m r t.length t h

theorem urlM_none (c : Char) (cs : List Char)
    (h : ':' ∉ c :: cs) : urlM c cs = none := by
  unfold urlM
  split
  · exfalso
    apply h
    simp
  · exfalso
    apply h
    simp
  · rfl

theorem emailM_none (c : Char) (cs : List Char)
    (h : '@' ∉ c :: cs) : emailM c cs = none := by
  unfold emailM
  split
  · dsimp only
    split
    · exfalso
      apply h
      rename_i heq
      exact mem_of_mem_dropCL _ _ _ (heq ▸ List.mem_cons_self _ _)
    · rfl
  · rfl

theorem noDouble_tail (c : Char) (cs : List Char)
    (h : NoDoubleWS (c :: cs)) : NoDoubleWS cs := by
  cases cs with
  | nil => trivial
  | cons d tl => exact h.2

theorem noDouble_cons_of (c : Char) (l : List Char)
    (hc : isRegexSpace c = false) (hl : NoDoubleWS l) :
    NoDoubleWS (c :: l) := by
  cases l with
  | nil => trivial
  | cons d tl =>
    exact ⟨fun hcd => by rw [hc] at hcd; exact absurd hcd.1 (by simp), hl⟩

theorem collapse_mem (u : List Char) :
    ∀ c ∈ collapseSpaces u, c = ' ' ∨ (c ∈ u ∧ isRegexSpace c = false) := by
  induction u with
  | nil => intro c hc; cases hc
  | cons a tl ih =>
    intro c hc
    unfold collapseSpaces at hc
    dsimp only at hc
    by_cases ha : isRegexSpace a = true
    · rw [if_pos ha] at hc
      rcases hsplit : collapseSpaces tl with _ | ⟨d, r⟩
      · rw [hsplit] at hc
        dsimp only at hc
        simp at hc
        left
        exact hc
      · rw [hsplit] at hc
        dsimp only at hc
        by_cases hd : isRegexSpace d = true
        · rw [if_pos hd] at hc
          rcases ih c (hsplit ▸ hc) with h | ⟨hm, hns⟩
          · left; exact h
          · right; exact ⟨List.mem_cons_of_mem _ hm, hns⟩
        · rw [if_neg hd] at hc
          rcases List.mem_cons.mp hc with rfl | hc2
          · left; rfl
          · rcases ih c (hsplit ▸ hc2) with h | ⟨hm, hns⟩
            · left; exact h
            · right; exact ⟨List.mem_cons_of_mem _ hm, hns⟩
    · rw [if_neg ha] at hc
      rcases List.mem_cons.mp hc with rfl | hc2
      · right
        exact ⟨List.mem_cons_self _ _, by simpa using ha⟩
      · rcases ih c hc2 with h | ⟨hm, hns⟩
        · left; exact h
        · right; exact ⟨List.mem_cons_of_mem _ hm, hns⟩

theorem collapse_noDouble (u : List Char) :
    NoDoubleWS (collapseSpaces u) := by
  induction u with
  | nil => trivial
  | cons a tl ih =>
    unfold collapseSpaces
    dsimp only
    by_cases ha : isRegexSpace a = true
    · rw [if_pos ha]
      rcases hsplit : collapseSpaces tl with _ | ⟨d, r⟩
      · trivial
      · dsimp only
        by_cases hd : isRegexSpace d = true
        · rw [if_pos hd]
          rw [← hsplit]
          exact ih
        · rw [if_neg hd]
          refine ⟨fun hp => absurd hp.2 hd, hsplit ▸ ih⟩
    · rw [if_neg ha]
      exact noDouble_cons_of a _ (by simpa using ha) ih

theorem collapse_id (u : List Char)
    (hnd : NoDoubleWS u)
    (hsp : ∀ c ∈ u, isRegexSpace c = true → c = ' ') :
    collapseSpaces u = u := by
  induction u with
  | nil => rfl
  | cons a tl ih =>
    unfold collapseSpaces
    dsimp only
    have hr : collapseSpaces tl = tl :=
      ih (noDouble_tail _ _ hnd) (fun c hc => hsp c (List.mem_cons_of_mem _ hc))
    rw [hr]
    by_cases ha : isRegexSpace a = true
    · rw [if_pos ha]
      have ha2 : a = ' ' := hsp a (List.mem_cons_self _ _) ha
      cases tl with
      | nil =>
        dsimp only
        rw [ha2]
      | cons d r =>
        have hd : isRegexSpace d = false := by
          by_contra hdc
          exact hnd.1 ⟨ha, by simpa using hdc⟩
        dsimp only
        rw [if_neg (by simp [hd]), ha2]
    · rw [if_neg ha]

theorem mem_of_mem_dropWhileCL (p : Char → Bool) (l : List Char) (c : Char)
    (h : c ∈ l.dropWhile p) : c ∈ l := by
  induction l with
  | nil => simpa using h
  | cons a tl ih =>
    rw [List.dropWhile] at h
    by_cases ha : p a = true
    · rw [ha] at h
      exact List.mem_cons_of_mem _ (ih h)
    · rw [Bool.not_eq_true] at ha
      rw [ha] at h
      exact h

theorem mem_of_mem_dtw (l : List Char) (c : Char)
    (h : c ∈ dropTrailingWS l) : c ∈ l := by
  induction l with
  | nil => exact absurd h (List.not_mem_nil c)
  | cons a tl ih =>
    unfold dropTrailingWS at h
    dsimp only at h
    by_cases he : (dropTrailingWS tl).isEmpty = true
    · rw [if_pos he] at h
      by_cases hg : isGoSpace a = true
      · rw [if_pos hg] at h
        cases h
      · rw [if_neg hg] at h
        rcases List.mem_singleton.mp h with rfl
        exact List.mem_cons_self _ _
    · rw [if_neg he] at h
      rcases List.mem_cons.mp h with rfl | h2
      · exact List.mem_cons_self _ _
      · exact List.mem_cons_of_mem _ (ih h2)

theorem noDouble_dropWhile (p : Char → Bool) (l : List Char)
    (h : NoDoubleWS l) : NoDoubleWS (l.dropWhile p) := by
  induction l with
  | nil => trivial
  | cons a tl ih =>
    rw [List.dropWhile]
    by_cases ha : p a = true
    · rw [ha]
      exact ih (noDouble_tail _ _ h)
    · rw [Bool.not_eq_true] at ha
      rw [ha]
      exact h

theorem dtw_cons_head (a : Char) (tl : List Char) :
    dropTrailingWS (a :: tl) = [] ∨
    ∃ xs, dropTrailingWS (a :: tl) = a :: xs := by
  unfold dropTrailingWS
  dsimp only
  by_cases he : (dropTrailingWS tl).isEmpty = true
  · rw [if_pos he]
    by_cases hg : isGoSpace a = true
    · rw [if_pos hg]
      left
      rfl
    · rw [if_neg hg]
      right
      exact ⟨[], rfl⟩
  · rw [if_neg he]
    right
    exact ⟨dropTrailingWS tl, rfl⟩

theorem noDouble_dtw (l : List Char)
    (h : NoDoubleWS l) : NoDoubleWS (dropTrailingWS l) := by
  induction l with
  | nil => trivial
  | cons a tl ih =>
    unfold dropTrailingWS
    dsimp only
    by_cases he : (dropTrailingWS tl).isEmpty = true
    · rw [if_pos he]
      by_cases hg : isGoSpace a = true
      · rw [if_pos hg]
        trivial
      · rw [if_neg hg]
        trivial
    · rw [if_neg he]
      have htl : NoDoubleWS (dropTrailingWS tl) := ih (noDouble_tail _ _ h)
      cases tl with
      | nil =>
        exfalso
        exact he rfl
      | cons d r =>
        rcases dtw_cons_head d r with hnil | ⟨xs, hxs⟩
        · exfalso
          rw [hnil] at he
          exact he rfl
        · rw [hxs]
          rw [hxs] at htl
          exact ⟨fun hp => h.1 hp, htl⟩

theorem dropWhile_head_not (p : Char → Bool) (l : List Char) (c : Char)
    (cs : List Char) (h : l.dropWhile p = c :: cs) : p c = false := by
  induction l with
  | nil => simp at h
  | cons a tl ih =>
    rw [List.dropWhile] at h
    by_cases ha : p a = true
    · rw [ha] at h
      exact ih h
    · rw [Bool.not_eq_true] at ha
      rw [ha] at h
      injection h with h1 _
      rw [← h1]
      exact ha

theorem dropWhile_of_head_false (p : Char → Bool) (c : Char)
    (cs : List Char) (h : p c = false) :
    (c :: cs).dropWhile p = c :: cs := by
  rw [List.dropWhile, h]

theorem dtw_idem (l : List Char) :
    dropTrailingWS (dropTrailingWS l) = dropTrailingWS l := by
  induction l with
  | nil => rfl
  | cons a tl ih =>
    have hstep : dropTrailingWS (a :: tl) =
        (if (dropTrailingWS tl).isEmpty = true then
          (if isGoSpace a = true then [] else [a])
         else a :: dropTrailingWS tl) := rfl
    by_cases he : (dropTrailingWS tl).isEmpty = true
    · by_cases hg : isGoSpace a = true
      · rw [hstep, if_pos he, if_pos hg]
        rfl
      · rw [hstep, if_pos he, if_neg hg]
        rw [show dropTrailingWS [a] =
          (if (dropTrailingWS ([] : List Char)).isEmpty = true then
            (if isGoSpace a = true then [] else [a])
           else a :: dropTrailingWS []) from rfl]
        rw [if_pos (show (dropTrailingWS ([] : List Char)).isEmpty = true
          from rfl), if_neg hg]
    · rw [hstep, if_neg he]
      rw [show dropTrailingWS (a :: dropTrailingWS tl) =
        (if (dropTrailingWS (dropTrailingWS tl)).isEmpty = true then
          (if isGoSpace a = true then [] else [a])
         else a :: dropTrailingWS (dropTrailingWS tl)) from rfl]
      rw [ih, if_neg he]

theorem trim_idem (l : List Char) :
    trimSpace (trimSpace l) = trimSpace l := by
  unfold trimSpace
  have h1 : (dropTrailingWS (l.dropWhile isGoSpace)).dropWhile isGoSpace =
      dropTrailingWS (l.dropWhile isGoSpace) := by
    rcases hdtw : dropTrailingWS (l.dropWhile isGoSpace) with _ | ⟨c, cs⟩
    · rfl
    · apply dropWhile_of_head_false
      rcases hw : l.dropWhile isGoSpace with _ | ⟨a, tl⟩
      · rw [hw] at hdtw
        rw [show dropTrailingWS ([] : List Char) = [] from rfl] at hdtw
        cases hdtw
      · rw [hw] at hdtw
        rcases dtw_cons_head a tl with hnil | ⟨xs, hxs⟩
        · rw [hnil] at hdtw
          cases hdtw
        · rw [hxs] at hdtw
          injection hdtw with h1 _
          exact h1 ▸ dropWhile_head_not isGoSpace l a tl hw
  rw [h1, dtw_idem]

theorem normalizeChars_chars (l : List Char) :
    ∀ c ∈ normalizeChars l, isLowerAlnumB c = true ∨ c = ' ' := by
  intro c hc
  unfold normalizeChars at hc
  dsimp only at hc
  unfold trimSpace at hc
  have hc2 := mem_of_mem_dropWhileCL _ _ _ (mem_of_mem_dtw _ _ hc)
  rcases collapse_mem _ _ hc2 with rfl | ⟨hm, hns⟩
  · right; rfl
  · rcases List.mem_map.mp hm with ⟨a, _, rfl⟩
    unfold nonTextRepl at hns ⊢
    by_cases hg : (isLowerAlnumB a || isRegexSpace a) = true
    · rw [if_pos hg] at hns ⊢
      rcases (Bool.or_eq_true _ _).mp hg with ha | ha
      · left; exact ha
      · rw [hns] at ha
        cases ha
    · rw [if_neg hg] at hns
      exact absurd hns (by decide)

theorem normalizeChars_noDouble (l : List Char) :
    NoDoubleWS (normalizeChars l) := by
  unfold normalizeChars trimSpace
  dsimp only
  exact noDouble_dtw _ (noDouble_dropWhile _ _ (collapse_noDouble _))

theorem normalizeChars_trim (l : List Char) :
    trimSpace (normalizeChars l) = normalizeChars l := by
  unfold normalizeChars
  dsimp only
  exact trim_idem _

/-- C2 counterexample: `normalize` is not idempotent.  Normalizing
"1.2.3.4.5.6.7.8.9" yields "1 2 3 4 5 6 7 8 9" (the dots are blanked,
the single digits are no phone match), but a second pass strips the
whole result as a phone-number-like digit run, yielding "". -/
theorem normalize_not_idempotent :
    normalizeText "1.2.3.4.5.6.7.8.9" = "1 2 3 4 5 6 7 8 9" ∧
    normalizeText (normalizeText "1.2.3.4.5.6.7.8.9") = "" ∧
    normalizeText (normalizeText "1.2.3.4.5.6.7.8.9") ≠
      normalizeText "1.2.3.4.5.6.7.8.9" :=
  ⟨by decide, by decide, by decide⟩

/-- C2 amended: normalization is idempotent exactly up to the
phone-stripping pass: for every string whose normalized form is left
unchanged by the phone-number pass (i.e. contains no
phone-number-like digit sequence), a second normalization is the
identity.  The other passes can never re-fire on normalized output: it
is lowercase-alphanumeric-and-single-space text, which the URL pass
(no ":"), the email pass (no "@"), the blanking pass, the whitespace
collapse and the trim all leave unchanged. -/
theorem normalize_idempotent_no_phone (s : String)
    (hph : replAll phoneM [] (normalizeChars s.data) =
      normalizeChars s.data) :
    normalizeText (normalizeText s) = normalizeText s := by
  have hchars := normalizeChars_chars s.data
  have hnd := normalizeChars_noDouble s.data
  have htrim := normalizeChars_trim s.data
  have h1 : (normalizeChars s.data).map goToLower = normalizeChars s.data :=
    map_id_on _ _ (fun c hc => goToLower_id c (hchars c hc))
  have hcolon := no_colon _ hchars
  have h2 : replAll urlM [] (normalizeChars s.data) =
      normalizeChars s.data :=
    replAll_id _ _ _ (fun pre c cs hpre => urlM_none c cs (fun hmem =>
      hcolon (by rw [hpre]; exact List.mem_append_right _ hmem)))
  have hat := no_at _ hchars
  have h3 : replAll emailM [] (normalizeChars s.data) =
      normalizeChars s.data :=
    replAll_id _ _ _ (fun pre c cs hpre => emailM_none c cs (fun hmem =>
      hat (by rw [hpre]; exact List.mem_append_right _ hmem)))
  have h5 : (normalizeChars s.data).map nonTextRepl =
      normalizeChars s.data :=
    map_id_on _ _ (fun c hc => nonTextRepl_id c (hchars c hc))
  have h6 : collapseSpaces (normalizeChars s.data) =
      normalizeChars s.data :=
    collapse_id _ hnd (fun c hc hs => ws_is_space c (hchars c hc) hs)
  have hdef : ∀ l : List Char, normalizeChars l =
      trimSpace (collapseSpaces
        ((replAll phoneM []
          (replAll emailM []
            (replAll urlM [] (l.map goToLower)))).map nonTextRepl)) :=
    fun l => rfl
  have h7 : normalizeChars (normalizeChars s.data) = normalizeChars s.data := by
    rw [hdef (normalizeChars s.data)]
    rw [h1, h2, h3, hph, h5, h6, htrim]
  unfold normalizeText
  rw [data_mk, h7]

/-- C2 witness: a phone-free posting normalizes idempotently. -/
theorem normalize_idempotent_no_phone_witness :
    (replAll phoneM [] (normalizeChars "Senior Backend Engineer!".data) =
      normalizeChars "Senior Backend Engineer!".data) ∧
    normalizeText (normalizeText "Senior Backend Engineer!") =
      normalizeText "Senior Backend Engineer!" :=
  ⟨by decide, normalize_idempotent_no_phone _ (by decide)⟩
